import Mathlib

/-!
Verification of the title/volume-normalization core of the
calibre_batch_edit_metadata plugin (src/plugin.py, src/main.py).

Strings are embedded as `List Char`.  Python functions are translated into
computable Lean definitions; regular-expression searches are translated into
explicit leftmost scans whose per-position matchers follow the regex engine
(greedy quantifiers with backtracking).  Machine integers do not overflow in
this code (Python ints are unbounded), so `Nat`/`Int` are used directly.
-/

namespace Calibre

/-! ### Basic character classes and string helpers -/

/-- ASCII decimal digit, the characters matched by `\d` in the source
patterns (the titles handled by the plugin use ASCII digits). -/
def isAsciiDigit (c : Char) : Bool := '0' ≤ c && c ≤ '9'

/-- Whitespace as stripped by Python `str.strip()` / matched by `\s`
(restricted to the ASCII whitespace characters that can occur here). -/
def isWSChar (c : Char) : Bool := c == ' ' || c == '\t' || c == '\n' || c == '\r'

/-- Remove the trailing run of characters satisfying `p`
(Python `str.rstrip(chars)`). -/
def rstripIf (p : Char → Bool) : List Char → List Char
  | [] => []
  | c :: cs =>
    let r := rstripIf p cs
    if r = [] ∧ p c then [] else c :: r

/-- Remove the leading run of characters satisfying `p`
(Python `str.lstrip(chars)`). -/
def lstripIf (p : Char → Bool) : List Char → List Char
  | [] => []
  | c :: cs => if p c then lstripIf p cs else c :: cs

/-- Python `str.strip()` (no argument): strip whitespace on both ends. -/
def stripWS (s : List Char) : List Char := rstripIf isWSChar (lstripIf isWSChar s)

/-- ASCII upper-casing, as Python `str.upper()` acts on the characters that
occur in the numeral candidates (CJK characters are unaffected by `upper`). -/
def asciiUpper (c : Char) : Char :=
  if 'a' ≤ c ∧ c ≤ 'z' then Char.ofNat (c.toNat - 32) else c

/-- Value of a decimal digit string, Python `int(s)` for a string of digits. -/
def digitsToNat (s : List Char) : Nat := s.foldl (fun a c => a * 10 + (c.toNat - 48)) 0

def digitChar (n : Nat) : Char := Char.ofNat (48 + n)

/-- Decimal rendering of a natural number, with explicit fuel so that the
recursion is structural and the kernel can evaluate it.  `natToChars` below
always supplies sufficient fuel (the value itself plus one), so this computes
the usual decimal digit string, as Python renders a nonnegative `int`. -/
def toCharsAux : Nat → Nat → List Char
  | 0, _ => []
  | fuel + 1, n =>
    if n < 10 then [digitChar n]
    else toCharsAux fuel (n / 10) ++ [digitChar (n % 10)]

/-- Decimal digit string of `n` (Python `str(n)` for a nonnegative int). -/
def natToChars (n : Nat) : List Char := toCharsAux (n + 1) n

/-! ### Numeral converter (plugin.py 14-27, 218-347) -/

/-- The single-character entries of the `CHINESE_NUMBERS` table
(plugin.py lines 15-24). -/
def chineseCharVal (c : Char) : Option Nat :=
  if c = '零' ∨ c = '〇' then some 0
  else if c = '一' ∨ c = '壹' then some 1
  else if c = '二' ∨ c = '贰' ∨ c = '兩' ∨ c = '两' then some 2
  else if c = '三' ∨ c = '叁' then some 3
  else if c = '四' ∨ c = '肆' then some 4
  else if c = '五' ∨ c = '伍' then some 5
  else if c = '六' ∨ c = '陆' then some 6
  else if c = '七' ∨ c = '柒' then some 7
  else if c = '八' ∨ c = '捌' then some 8
  else if c = '九' ∨ c = '玖' then some 9
  else if c = '十' ∨ c = '拾' then some 10
  else if c = '廿' then some 20
  else if c = '卅' then some 30
  else if c = '卌' then some 40
  else if c = '百' ∨ c = '佰' then some 100
  else if c = '千' ∨ c = '仟' then some 1000
  else if c = '万' ∨ c = '萬' then some 10000
  else none

/-- Whole-string lookup in `CHINESE_NUMBERS`, covering also the
multi-character keys `十一` .. `十九` and `二十` (plugin.py lines 20-22).
Used by the `chinese_num in CHINESE_NUMBERS` special case. -/
def chineseStrVal (s : List Char) : Option Nat :=
  match s with
  | [c] => chineseCharVal c
  | ['十', '一'] => some 11
  | ['十', '二'] => some 12
  | ['十', '三'] => some 13
  | ['十', '四'] => some 14
  | ['十', '五'] => some 15
  | ['十', '六'] => some 16
  | ['十', '七'] => some 17
  | ['十', '八'] => some 18
  | ['十', '九'] => some 19
  | ['二', '十'] => some 20
  | _ => none

/-- The accumulation loop of `chinese_to_int` (plugin.py 253-272), carrying
the `result` and `temp` state: a unit token (value ≥ 10) multiplies the
pending digit (defaulting to 1) and resets it, a digit becomes the pending
value, and the first unrecognized character breaks the loop; after the loop
the pending value is added to the total. -/
def chineseLoop : List Char → Nat → Nat → Nat
  | [], result, temp => result + temp
  | c :: cs, result, temp =>
    match chineseCharVal c with
    | none => result + temp
    | some num =>
      if 10 ≤ num then chineseLoop cs (result + (if temp = 0 then 1 else temp) * num) 0
      else chineseLoop cs result num

/-- `chinese_to_int` (plugin.py 247-278): the empty string gives 0, an exact
whole-string table hit (plugin.py 275-276) overrides the loop result, and
otherwise the accumulation loop decides.  This function never raises. -/
def chinese_to_int (s : List Char) : Nat :=
  if s = [] then 0
  else
    match chineseStrVal s with
    | some v => v
    | none => chineseLoop s 0 0

/-- Entry of the `roman_dict` lookup of `roman_to_int` (plugin.py 283),
with `dict.get(char, 0)` default 0. -/
def romanVal (c : Char) : Nat :=
  match c with
  | 'I' => 1
  | 'V' => 5
  | 'X' => 10
  | 'L' => 50
  | 'C' => 100
  | 'D' => 500
  | 'M' => 1000
  | _ => 0

/-- The right-to-left scan of `roman_to_int` (plugin.py 287-293), carrying
the running result and the previous value: a value smaller than the value to
its right is subtracted, otherwise added. -/
def romanLoop : List Char → Int → Nat → Int
  | [], result, _ => result
  | c :: cs, result, prev =>
    let v := romanVal c
    if v < prev then romanLoop cs (result - v) v else romanLoop cs (result + v) v

/-- `roman_to_int` (plugin.py 281-295).  The scan can produce a negative
value for degenerate inputs, hence `Int`. -/
def roman_to_int (s : List Char) : Int := romanLoop ((s.map asciiUpper).reverse) 0 0

def isRomanChar (c : Char) : Bool :=
  c == 'I' || c == 'V' || c == 'X' || c == 'L' || c == 'C' || c == 'D' || c == 'M'

/-- `parse_volume_number` (plugin.py 218-244): falsy (empty) input gives no
value; otherwise the stripped string is tried as Arabic digits, then as an
upper-cased Roman numeral (`^[IVXLCDM]+$`), then handed to `chinese_to_int`.
Neither `roman_to_int` nor `chinese_to_int` can raise, so the two
`try/except` blocks of the source never take their except branch. -/
def parse_volume_number (s : List Char) : Option Int :=
  if s = [] then none
  else
    let t := stripWS s
    if t ≠ [] ∧ t.all isAsciiDigit then some (digitsToNat t)
    else
      let u := t.map asciiUpper
      if u ≠ [] ∧ u.all isRomanChar then some (roman_to_int u)
      else some (chinese_to_int t)

def chineseDigit (n : Nat) : Char :=
  match n with
  | 0 => '零'
  | 1 => '一'
  | 2 => '二'
  | 3 => '三'
  | 4 => '四'
  | 5 => '五'
  | 6 => '六'
  | 7 => '七'
  | 8 => '八'
  | _ => '九'

/-- `int_to_chinese` (plugin.py 321-347): 0 (and below, for Python ints)
gives `零`; 1-9 a single digit; 10-19 `十` plus a digit; 20-99
digit + `十` + digit; values ≥ 100 fall back to plain decimal digits. -/
def int_to_chinese (num : Nat) : List Char :=
  if num = 0 then ['零']
  else if num < 10 then [chineseDigit num]
  else if num < 20 then
    if num = 10 then ['十'] else ['十', chineseDigit (num % 10)]
  else if num < 100 then
    if num % 10 = 0 then [chineseDigit (num / 10), '十']
    else [chineseDigit (num / 10), '十', chineseDigit (num % 10)]
  else natToChars num

/-! ### Volume extractor (plugin.py 166-215)

Each regex of the source is translated into a per-position matcher over the
suffix starting at that position, plus a leftmost scan (`searchHere`), which
is exactly `re.search`.  The numeral, separator, keyword and bracket
character classes of the patterns are pairwise disjoint, so the regex
engine's greedy backtracking can succeed only at the maximal runs the
matchers compute; the one place where backtracking over the numeral run is
observable (pattern 1, where a shorter numeral run would need a keyword
character inside the numeral class) is implemented as an explicit downward
search (`btKw`). -/

/-- The Chinese-numeral characters of the regex classes
`[零一二三四五六七八九十百千万壹贰叁肆伍陆柒捌玖拾佰仟萬...]`. -/
def isChineseNum (c : Char) : Bool :=
  c == '零' || c == '一' || c == '二' || c == '三' || c == '四' || c == '五' ||
  c == '六' || c == '七' || c == '八' || c == '九' || c == '十' || c == '百' ||
  c == '千' || c == '万' || c == '壹' || c == '贰' || c == '叁' || c == '肆' ||
  c == '伍' || c == '陆' || c == '柒' || c == '捌' || c == '玖' || c == '拾' ||
  c == '佰' || c == '仟' || c == '萬'

def isRomanCharLower (c : Char) : Bool :=
  c == 'i' || c == 'v' || c == 'x' || c == 'l' || c == 'c' || c == 'd' || c == 'm'

/-- Numeral class of pattern 1 (no IGNORECASE): Chinese, `\d`, upper Roman. -/
def isNumP1 (c : Char) : Bool := isChineseNum c || isAsciiDigit c || isRomanChar c

/-- Numeral class of the mode-2 patterns compiled with `re.IGNORECASE`:
also lower-case Roman letters. -/
def isNumP2 (c : Char) : Bool := isNumP1 c || isRomanCharLower c

/-- Numeral class of the `v<n>` and `第<n>部分` patterns: Chinese and `\d`
only (their classes contain no Roman letters). -/
def isNumCD (c : Char) : Bool := isChineseNum c || isAsciiDigit c

/-- `[卷冊册部篇集季期话回]`, the volume keyword class (plugin.py 27, 179). -/
def isVolKeyword (c : Char) : Bool :=
  c == '卷' || c == '冊' || c == '册' || c == '部' || c == '篇' ||
  c == '集' || c == '季' || c == '期' || c == '话' || c == '回'

/-- `[-_\s]`, the separator class of the first mode-2 pattern. -/
def isSepP2a (c : Char) : Bool := c == '-' || c == '_' || isWSChar c

/-- The characters right-stripped from the simplified title,
`rstrip(' -_·・')` (plugin.py 186, 204, 211). -/
def isTrimSep (c : Char) : Bool :=
  c == ' ' || c == '-' || c == '_' || c == '·' || c == '・'

/-- Backtracking of the greedy `NUM+` of pattern 1: try numeral lengths from
the maximal run downwards and return the largest length `k ≥ 1` such that the
character at position `k` of `rest` is a volume keyword. -/
def btKw (rest : List Char) : Nat → Option Nat
  | 0 => none
  | k + 1 =>
    match rest.get? (k + 1) with
    | some c => if isVolKeyword c then some (k + 1) else btKw rest k
    | none => btKw rest k

/-- Pattern 1 `第(NUM+)(KEYWORD)(.*?)$` tried at the head of `l`
(plugin.py 179); the trailing `(.*?)$` always matches and is dropped.
Returns the numeral group. -/
def p1Here (l : List Char) : Option (List Char) :=
  match l with
  | '第' :: rest =>
    match btKw rest (rest.takeWhile isNumP1).length with
    | some k => some (rest.take k)
    | none => none
  | _ => none

/-- Pattern `[-_\s]+(NUM+)(KW)?$` tried at the head of `l` (plugin.py 191):
a nonempty separator run, a nonempty numeral run, at most one keyword
character, then end of string. -/
def p2aHere (l : List Char) : Option (List Char) :=
  let seps := l.takeWhile isSepP2a
  if seps = [] then none
  else
    let rest := l.drop seps.length
    let num := rest.takeWhile isNumP2
    if num = [] then none
    else
      match rest.drop num.length with
      | [] => some num
      | [c] => if isVolKeyword c then some num else none
      | _ => none

/-- Bracket patterns `[（(](NUM+)(KW)?[）)]$` and `[【〔](NUM+)(KW)?[】〕]$`
tried at the head of `l` (plugin.py 192-193). -/
def pBracketHere (opens closes : List Char) (l : List Char) : Option (List Char) :=
  match l with
  | [] => none
  | c :: rest =>
    if c ∈ opens then
      let num := rest.takeWhile isNumP2
      if num = [] then none
      else
        match rest.drop num.length with
        | [d] => if d ∈ closes then some num else none
        | [k, d] => if isVolKeyword k ∧ d ∈ closes then some num else none
        | _ => none
    else none

/-- Pattern `v(NUM+)$` tried at the head of `l` (plugin.py 194), with the
leading `v` case-insensitive: the rest of the string must be a nonempty run
of Chinese/digit numeral characters. -/
def pVHere (l : List Char) : Option (List Char) :=
  match l with
  | [] => none
  | c :: rest =>
    if (c = 'v' ∨ c = 'V') ∧ rest ≠ [] ∧ rest.all isNumCD then some rest else none

/-- Pattern `第(NUM+)部分$` tried at the head of `l` (plugin.py 195). -/
def pPartHere (l : List Char) : Option (List Char) :=
  match l with
  | '第' :: rest =>
    let num := rest.takeWhile isNumCD
    if num = [] then none
    else
      match rest.drop num.length with
      | ['部', '分'] => some num
      | _ => none
  | _ => none

/-- `re.search`: scan candidate start positions left to right and return the
start index of the first position where the pattern matches, together with
the captured numeral group. -/
def searchHere (hereF : List Char → Option (List Char)) :
    List Char → Nat → Option (Nat × List Char)
  | [], s =>
    match hereF [] with
    | some g => some (s, g)
    | none => none
  | c :: cs, s =>
    match hereF (c :: cs) with
    | some g => some (s, g)
    | none => searchHere hereF cs (s + 1)

/-- Search a pattern and parse its numeral group (plugin.py 181-185 and
199-203): the first regex match is taken, and a parse failure on its group
does not retry the same pattern further right. -/
def searchAndParse (hereF : List Char → Option (List Char)) (title : List Char) :
    Option (Nat × Int) :=
  match searchHere hereF title 0 with
  | some (s, g) =>
    match parse_volume_number g with
    | some v => some (s, v)
    | none => none
  | none => none

/-- The maximal run of trailing ASCII digits, the group of `(\d+)$`. -/
def trailingDigitsRun (title : List Char) : List Char :=
  (title.reverse.takeWhile isAsciiDigit).reverse

/-- Mode 3 (plugin.py 208-212): bare trailing digits, only accepted when of
length ≤ 4 (year guard); the value is `int(group)` directly. -/
def mode3 (title : List Char) : Option (Nat × Int) :=
  let run := trailingDigitsRun title
  if run ≠ [] ∧ run.length ≤ 4 then
    some (title.length - run.length, (digitsToNat run : Int))
  else none

/-- The ordered rule cascade of `extract_volume_with_context`
(plugin.py 176-212), as the first successful (matched and parsed) rule:
pattern 1, the five mode-2 patterns in order, then trailing digits.
Returns the match start and the parsed volume. -/
def volumeCandidate (title : List Char) : Option (Nat × Int) :=
  searchAndParse p1Here title <|>
  searchAndParse p2aHere title <|>
  searchAndParse (pBracketHere ['（', '('] ['）', ')']) title <|>
  searchAndParse (pBracketHere ['【', '〔'] ['】', '〕']) title <|>
  searchAndParse pVHere title <|>
  searchAndParse pPartHere title <|>
  mode3 title

/-- `extract_volume_with_context` (plugin.py 166-215): on a match, the
simplified title is everything before the match start with trailing
`' -_·・'` separators stripped; otherwise the original title with no
volume. -/
def extract_volume_with_context (title : List Char) : List Char × Option Int :=
  match volumeCandidate title with
  | some (s, v) => (rstripIf isTrimSep (title.take s), some v)
  | none => (title, none)

/-! ### Volume sorter (plugin.py 469-493) -/

/-- plugin.py 487: Python `volume or 0` — `None` (and 0 itself) become 0. -/
def resolvedVolume (t : List Char) : Int :=
  match (extract_volume_with_context t).2 with
  | some v => v
  | none => 0

/-- The sort key order of `books_with_volume.sort(key=lambda x: x[1])`:
compare resolved volumes. -/
def volLE (a b : Nat × Int) : Prop := a.2 ≤ b.2

instance : DecidableRel volLE := fun a b => inferInstanceAs (Decidable (a.2 ≤ b.2))

instance : IsTotal (Nat × Int) volLE := ⟨fun a b => Int.le_total a.2 b.2⟩

instance : IsTrans (Nat × Int) volLE := ⟨fun _ _ _ h1 h2 => le_trans h1 h2⟩

/-- `detect_and_sort_books_by_volume` (plugin.py 469-493), with the database
abstracted away: each book id comes paired with its title, and every
metadata fetch succeeds.  Python `list.sort` is a stable ascending sort,
modeled by insertion sort with the non-strict key order (stable sorts agree
as functions). -/
def detect_and_sort_books_by_volume (books : List (Nat × List Char)) : List (Nat × Int) :=
  List.insertionSort volLE (books.map (fun b => (b.1, resolvedVolume b.2)))

/-- Predicate selecting the entries with a given resolved volume, used to
state stability (equal-volume entries keep their relative input order). -/
def keyEq (v : Int) : Nat × Int → Bool := fun x => x.2 == v

/-! ### Title aligner (plugin.py 30-163) -/

/-- Two-string character-wise longest common prefix. -/
def lcp2 : List Char → List Char → List Char
  | a :: as2, b :: bs => if a = b then a :: lcp2 as2 bs else []
  | _, _ => []

/-- `os.path.commonprefix`: the character-wise longest common prefix of all
the strings (plugin.py 60). -/
def commonPrefixAll : List (List Char) → List Char
  | [] => []
  | t :: ts => ts.foldl lcp2 t

/-- The word-boundary set of `trim_to_word_boundary` (plugin.py 88). -/
def isBoundaryChar (c : Char) : Bool :=
  c == ' ' || c == '-' || c == '_' || c == '·' || c == '~' ||
  c == '～' || c == ':' || c == '：' || c == '・'

/-- Scan of `trim_to_word_boundary` over the reversed text: find the last
boundary character and return the characters before it. -/
def trimAux : List Char → Option (List Char)
  | [] => none
  | c :: cs => if isBoundaryChar c then some cs.reverse else trimAux cs

/-- `trim_to_word_boundary` (plugin.py 85-95): cut at the last boundary
character and right-strip whitespace; unchanged when no boundary exists. -/
def trim_to_word_boundary (t : List Char) : List Char :=
  match trimAux t.reverse with
  | some pre => rstripIf isWSChar pre
  | none => t

/-- The DP table of `longest_common_subsequence` (plugin.py 118-126), as a
function of the two (0-based) lengths considered, with explicit fuel so the
kernel can evaluate it; `dpT` supplies fuel `i + j`, which every recursive
call preserves as an upper bound (`dpTA_fuel_eq` below), so the dead fuel-0
branch is never taken.  Out-of-range character accesses use distinct default
characters and thus never compare equal; in the source all accesses are in
range. -/
def dpTA (s1 s2 : List Char) : Nat → Nat → Nat → Nat
  | _, 0, _ => 0
  | _, _ + 1, 0 => 0
  | 0, _ + 1, _ + 1 => 0
  | f + 1, i + 1, j + 1 =>
    if s1.getD i 'a' = s2.getD j 'b' then dpTA s1 s2 f i j + 1
    else max (dpTA s1 s2 f i (j + 1)) (dpTA s1 s2 f (i + 1) j)

/-- `dp[i][j]` of plugin.py 118-126. -/
def dpT (s1 s2 : List Char) (i j : Nat) : Nat := dpTA s1 s2 (i + j) i j

/-- One step of the backtracking loop of `longest_common_subsequence`
(plugin.py 129-140) at state `(i, j)` with `i > 0`, `j > 0`: equal current
characters step diagonally; otherwise step toward the strictly larger of
`dp[i-1][j]` and `dp[i][j-1]`, decrementing `j` when they are equal. -/
def lcsStep (s1 s2 : List Char) : Nat → Nat → Nat × Nat
  | 0, j => (0, j)
  | i + 1, 0 => (i + 1, 0)
  | i + 1, j + 1 =>
    if s1.getD i 'a' = s2.getD j 'b' then (i, j)
    else if dpT s1 s2 i (j + 1) > dpT s1 s2 (i + 1) j then (i, j + 1)
    else (i + 1, j)

/-- The full backtracking reconstruction (plugin.py 129-142), fueled like
`dpTA`; the appended characters come out in string order (the source appends
then reverses). -/
def lcsBackA (s1 s2 : List Char) : Nat → Nat → Nat → List Char
  | _, 0, _ => []
  | _, _ + 1, 0 => []
  | 0, _ + 1, _ + 1 => []
  | f + 1, i + 1, j + 1 =>
    if s1.getD i 'a' = s2.getD j 'b' then lcsBackA s1 s2 f i j ++ [s1.getD i 'a']
    else if dpT s1 s2 i (j + 1) > dpT s1 s2 (i + 1) j then lcsBackA s1 s2 f i (j + 1)
    else lcsBackA s1 s2 f (i + 1) j

def lcsBack (s1 s2 : List Char) (i j : Nat) : List Char := lcsBackA s1 s2 (i + j) i j

/-- `longest_common_subsequence` (plugin.py 115-142). -/
def longest_common_subsequence (s1 s2 : List Char) : List Char :=
  lcsBack s1 s2 s1.length s2.length

/-- The fold of `find_longest_common_subsequence` (plugin.py 107-110):
left-to-right LCS accumulation, aborting when an intermediate LCS is empty. -/
def findLCSfold (acc : List Char) : List (List Char) → Option (List Char)
  | [] => some acc
  | t :: ts =>
    let l := longest_common_subsequence acc t
    if l = [] then none else findLCSfold l ts

/-- `find_longest_common_subsequence` (plugin.py 98-112): fold the LCS over
all titles starting from the first; accept only a result of length ≥ 5. -/
def find_longest_common_subsequence (ts : List (List Char)) : Option (List Char) :=
  match ts with
  | [] => none
  | base :: rest =>
    match findLCSfold base rest with
    | some l => if 5 ≤ l.length then some l else none
    | none => none

/-- The split class of `find_common_words` (plugin.py 154):
`re.split(r'[^一-鿿\w]+', title)` keeps runs of word characters.
`\w` is modeled as ASCII letters/digits/underscore plus the CJK range
(the only word characters occurring in this plugin's titles). -/
def isWordChar (c : Char) : Bool :=
  ('a' ≤ c && c ≤ 'z') || ('A' ≤ c && c ≤ 'Z') || isAsciiDigit c || c == '_' ||
  (0x4e00 ≤ c.toNat && c.toNat ≤ 0x9fff)

/-- Collect the maximal runs of word characters (the nonempty tokens of the
`re.split`; empty tokens are discarded by the length filter anyway). -/
def splitWordsAux : List Char → List Char → List (List Char)
  | [], acc => if acc = [] then [] else [acc.reverse]
  | c :: cs, acc =>
    if isWordChar c then splitWordsAux cs (c :: acc)
    else if acc = [] then splitWordsAux cs [] else acc.reverse :: splitWordsAux cs []

def splitWords (t : List Char) : List (List Char) := splitWordsAux t []

/-- The tokens of one title kept by `find_common_words` (plugin.py 153-155):
words of length ≥ 2. -/
def titleWords (t : List Char) : List (List Char) :=
  (splitWords t).filter (fun w => 2 ≤ w.length)

/-- Deduplicate keeping first occurrences (CPython `set`/`Counter` insertion
order of first insertion). -/
def firstDedup (l : List (List Char)) : List (List Char) :=
  l.foldl (fun acc a => if a ∈ acc then acc else acc ++ [a]) []

/-- The common-word set computed by `find_common_words` (plugin.py 158-161),
as a list in a canonical order (first title's word order).  The CPython
set-iteration order that `sorted` receives is an arbitrary permutation of
this list; it is supplied separately to `find_common_words_ord`. -/
def commonWordsCanon : List (List Char) → List (List Char)
  | [] => []
  | t :: ts =>
    (firstDedup (titleWords t)).filter (fun w => ts.all (fun u => (titleWords u).contains w))

/-- The descending-length order of `sorted(common_words, key=len,
reverse=True)` (plugin.py 163). -/
def lenGE (a b : List Char) : Prop := b.length ≤ a.length

instance : DecidableRel lenGE := fun a b => inferInstanceAs (Decidable (b.length ≤ a.length))

/-- `find_common_words` (plugin.py 145-163) with the set-iteration order made
explicit: `iter` is the common-word set in CPython set-iteration order
(theorems state its validity as a permutation of `commonWordsCanon`).
Python `sorted(key=len, reverse=True)` is a stable descending sort, modeled
by insertion sort with the non-strict descending length order. -/
def find_common_words_ord (iter : List (List Char)) : List (List Char) :=
  List.insertionSort lenGE iter

/-- `' '.join(words)`. -/
def joinSpace (ws : List (List Char)) : List Char := List.intercalate [' '] ws

/-- `Counter(l).most_common(1)[0][0]` (plugin.py 79-80): the most frequent
element; on ties the first-inserted key wins, since CPython `Counter`
preserves first-insertion order and `most_common`'s sort is stable. -/
def mostCommonStr (l : List (List Char)) : List Char :=
  match firstDedup l with
  | [] => []
  | a :: rest => rest.foldl (fun best w => if l.count best < l.count w then w else best) a

/-- `extract_base_title` (plugin.py 30-82), with the set-iteration order of
step 5's common-word set supplied explicitly as `iter` (see
`find_common_words_ord`): (1) strip volumes, keeping nonempty simplified
titles stripped of whitespace, falling back to the raw titles; (2) a single
title is returned verbatim; (3) a common prefix of length ≥ 3, trimmed to a
word boundary and still of length ≥ 3, wins; (4) otherwise a folded LCS of
length ≥ 5; (5) otherwise the joined common words; (6) otherwise the most
frequent simplified title. -/
def extract_base_title_ord (titles : List (List Char)) (iter : List (List Char)) :
    List Char :=
  match titles with
  | [] => []
  | _ :: _ =>
    let sts0 := titles.filterMap (fun t =>
      let s := (extract_volume_with_context t).1
      if s = [] then none else some (stripWS s))
    let sts := if sts0 = [] then titles else sts0
    match sts with
    | [only] => only
    | _ =>
      let cp := commonPrefixAll sts
      let cpt := trim_to_word_boundary cp
      if 3 ≤ cp.length ∧ 3 ≤ cpt.length then cpt
      else
        match find_longest_common_subsequence sts with
        | some l => l
        | none =>
          let cw := find_common_words_ord iter
          if cw ≠ [] then joinSpace cw
          else mostCommonStr sts

/-! ### Rename planner (plugin.py 370-466 and 497-552) -/

/-- The zero-pad width of `batch_update_metadata` (plugin.py 395):
`1 if total < 10 else 2 if total < 100 else 3`. -/
def batchDigits (total : Nat) : Nat :=
  if total < 10 then 1 else if total < 100 then 2 else 3

/-- The zero-pad width of `preview_metadata_changes` (plugin.py 538):
`math.ceil(math.log10(total + 1))`, which for a nonnegative integer is its
decimal digit count (0 for 0); the real-valued ceiling is modeled exactly
(the source computes it in floating point, which agrees on these integer
arguments). -/
def previewDigits (total : Nat) : Nat :=
  if total = 0 then 0 else (natToChars total).length

/-- `f"{i:0{width}d}"`: decimal rendering left-padded with zeros to `width`
(never truncating). -/
def zeroPad (width i : Nat) : List Char :=
  let d := natToChars i
  List.replicate (width - d.length) '0' ++ d

/-- The volume suffix built by `batch_update_metadata` (plugin.py 391-396)
for 1-based index `i` out of `total` books. -/
def batchVolumeSuffix (volume_format : List Char) (total i : Nat) : List Char :=
  if volume_format = "chinese".data then '第' :: (int_to_chinese i ++ ['卷'])
  else zeroPad (batchDigits total) i

/-- The volume suffix built by `preview_metadata_changes`
(plugin.py 534-539). -/
def previewVolumeSuffix (volume_format : List Char) (total i : Nat) : List Char :=
  if volume_format = "chinese".data then '第' :: (int_to_chinese i ++ ['卷'])
  else zeroPad (previewDigits total) i

/-- `new_title = f"{new_title_base}{volume_suffix}"` (plugin.py 398). -/
def batchNewTitle (base volume_format : List Char) (total i : Nat) : List Char :=
  base ++ batchVolumeSuffix volume_format total i

/-- `new_title = f"{new_title_base}{volume_suffix}"` (plugin.py 541). -/
def previewNewTitle (base volume_format : List Char) (total i : Nat) : List Char :=
  base ++ previewVolumeSuffix volume_format total i

/-- The new titles produced for a batch of `n` books by
`batch_update_metadata` (indices enumerate from 1). -/
def batchNewTitles (base volume_format : List Char) (n : Nat) : List (List Char) :=
  (List.range' 1 n).map (batchNewTitle base volume_format n)

/-- The new titles produced for a batch of `n` successfully fetched books by
`preview_metadata_changes`. -/
def previewNewTitles (base volume_format : List Char) (n : Nat) : List (List Char) :=
  (List.range' 1 n).map (previewNewTitle base volume_format n)

/-- The metadata fields manipulated by `batch_update_metadata`
(plugin.py 400-443); `series_index` is a string because the clear branch
assigns `""` to it. -/
structure Metadata where
  title : List Char
  authors : List (List Char)
  sort_authors : List (List Char)
  sort_title : List Char
  comments : List Char
  tags : List (List Char)
  series : List Char
  series_index : List Char
  publisher : List Char
deriving DecidableEq

/-- The new-metadata construction of `batch_update_metadata` for one book
(plugin.py 400-443): a fresh object titled `new_title`; the author override
applies when nonempty after stripping; the original sort title is kept when
present; comments are copied; `clear_tags` empties the tags, `clear_series`
empties the series fields, and `clear_publisher` keeps the original
publisher while a false `clear_publisher` empties it (plugin.py 439-443). -/
def buildNewMetadata (mi : Metadata) (new_title author : List Char)
    (clear_tags clear_series clear_publisher : Bool) : Metadata :=
  { title := new_title
    authors := if stripWS author ≠ [] then [stripWS author] else mi.authors
    sort_authors := if stripWS author ≠ [] then [stripWS author] else mi.sort_authors
    sort_title := if mi.sort_title ≠ [] then mi.sort_title else new_title
    comments := mi.comments
    tags := if clear_tags then [] else mi.tags
    series := if clear_series then [] else mi.series
    series_index := if clear_series then [] else mi.series_index
    publisher := if clear_publisher then mi.publisher else [] }

/-! ### Host-boundary length handling (main.py 138-177, 364-376) -/

/-- The length-consistency step of `organize_book_data` (main.py 159-177):
equal lengths pass through; mismatched lists are silently truncated to the
shortest length and processing continues; only a shortest length of 0 makes
the method give up (`none`). -/
def reconcileBookData {α β : Type} (ids : List Nat) (books : List α) (titles : List β) :
    Option (List Nat × List α × List β) :=
  if ids.length = books.length ∧ books.length = titles.length then some (ids, books, titles)
  else
    let m := min ids.length (min books.length titles.length)
    if m = 0 then none
    else some (ids.take m, books.take m, titles.take m)

/-- The pre-update guard of `accept` (main.py 371-376): the update proceeds
only when the id list and the metadata list have equal length; otherwise an
error dialog is shown and the method returns. -/
def acceptProceeds {α : Type} (ids : List Nat) (books : List α) : Bool :=
  ids.length == books.length

/-! ## Supporting lemmas -/

/-- Right-stripping yields an initial segment of the original list. -/
theorem rstripIf_eq_take (p : Char → Bool) (l : List Char) :
    ∃ k, k ≤ l.length ∧ rstripIf p l = l.take k := by
  induction l with
  | nil => exact ⟨0, by simp [rstripIf]⟩
  | cons c cs ih =>
    obtain ⟨k, hk, he⟩ := ih
    by_cases h : rstripIf p cs = [] ∧ p c
    · exact ⟨0, by simp [rstripIf, h]⟩
    · refine ⟨k + 1, by simpa using hk, ?_⟩
      have hc : rstripIf p (c :: cs) = c :: rstripIf p cs := by
        simp only [rstripIf]
        rw [if_neg h]
      rw [hc, he, List.take_succ_cons]

/-- The fuel argument of `dpTA` is irrelevant as long as it dominates
`i + j`, so `dpT` is well defined. -/
theorem dpTA_fuel (s1 s2 : List Char) :
    ∀ f g i j, i + j ≤ f → i + j ≤ g → dpTA s1 s2 f i j = dpTA s1 s2 g i j := by
  intro f
  induction f with
  | zero =>
    intro g i j hf _
    have hi : i = 0 := by omega
    subst hi
    simp [dpTA]
  | succ f ihf =>
    intro g i j hf hg
    cases i with
    | zero => simp [dpTA]
    | succ i =>
      cases j with
      | zero => simp [dpTA]
      | succ j =>
        cases g with
        | zero => omega
        | succ g =>
          simp only [dpTA]
          rw [ihf g i j (by omega) (by omega),
              ihf g i (j + 1) (by omega) (by omega),
              ihf g (i + 1) j (by omega) (by omega)]

/-- `dpT` satisfies the LCS recurrence that the source's loop fills in
(plugin.py 121-126). -/
theorem dpT_succ_succ (s1 s2 : List Char) (i j : Nat) :
    dpT s1 s2 (i + 1) (j + 1) =
      if s1.getD i 'a' = s2.getD j 'b' then dpT s1 s2 i j + 1
      else max (dpT s1 s2 i (j + 1)) (dpT s1 s2 (i + 1) j) := by
  unfold dpT
  have h : (i + 1) + (j + 1) = (i + j + 1) + 1 := by omega
  rw [h]
  simp only [dpTA]
  rw [dpTA_fuel s1 s2 (i + j + 1) (i + j) i j (by omega) (by omega),
      dpTA_fuel s1 s2 (i + j + 1) (i + (j + 1)) i (j + 1) (by omega) (by omega),
      dpTA_fuel s1 s2 (i + j + 1) ((i + 1) + j) (i + 1) j (by omega) (by omega)]

theorem toCharsAux_lt_ten (f n : Nat) (h : n < 10) :
    toCharsAux (f + 1) n = [digitChar n] := by
  simp [toCharsAux, h]

theorem toCharsAux_ge_ten (f n : Nat) (h : ¬ n < 10) :
    toCharsAux (f + 1) n = toCharsAux f (n / 10) ++ [digitChar (n % 10)] := by
  simp [toCharsAux, h]

theorem natToChars_len1 (n : Nat) (h : n < 10) : (natToChars n).length = 1 := by
  unfold natToChars
  rw [toCharsAux_lt_ten n n h]
  rfl

theorem natToChars_len2 (n : Nat) (h1 : 10 ≤ n) (h2 : n ≤ 99) :
    (natToChars n).length = 2 := by
  unfold natToChars
  rw [toCharsAux_ge_ten n n (by omega)]
  obtain ⟨m, rfl⟩ : ∃ m, n = m + 1 := ⟨n - 1, by omega⟩
  rw [toCharsAux_lt_ten m ((m + 1) / 10) (by omega)]
  rfl

theorem natToChars_len3 (n : Nat) (h1 : 100 ≤ n) (h2 : n ≤ 999) :
    (natToChars n).length = 3 := by
  unfold natToChars
  rw [toCharsAux_ge_ten n n (by omega)]
  obtain ⟨m, rfl⟩ : ∃ m, n = m + 1 := ⟨n - 1, by omega⟩
  rw [toCharsAux_ge_ten m ((m + 1) / 10) (by omega)]
  obtain ⟨p, rfl⟩ : ∃ p, m = p + 1 := ⟨m - 1, by omega⟩
  rw [toCharsAux_lt_ten p ((p + 2) / 10 / 10) (by omega)]
  rfl

/-- On batch sizes 1-999 the two zero-pad widths coincide. -/
theorem previewDigits_eq_batchDigits (n : Nat) (h1 : 1 ≤ n) (h2 : n ≤ 999) :
    previewDigits n = batchDigits n := by
  unfold previewDigits batchDigits
  rw [if_neg (by omega : ¬ n = 0)]
  by_cases ha : n < 10
  · rw [natToChars_len1 n ha, if_pos ha]
  · by_cases hb : n < 100
    · rw [natToChars_len2 n (by omega) (by omega), if_neg ha, if_pos hb]
    · rw [natToChars_len3 n (by omega) (by omega), if_neg ha, if_neg hb]

/-- Inserting an element into a list keeps the selected-key sublist intact
(prepending the element when it has the key): `orderedInsert` walks only past
elements of strictly smaller key. -/
theorem filter_orderedInsert_key (v : Int) (a : Nat × Int) (l : List (Nat × Int)) :
    (List.orderedInsert volLE a l).filter (keyEq v) =
      if a.2 = v then a :: l.filter (keyEq v) else l.filter (keyEq v) := by
  induction l with
  | nil => by_cases h : a.2 = v <;> simp [List.orderedInsert, keyEq, h]
  | cons b l ih =>
    by_cases hab : volLE a b
    · by_cases ha : a.2 = v <;> by_cases hb : b.2 = v <;>
        simp [List.orderedInsert, hab, List.filter_cons, keyEq, ha, hb]
    · have hba : b.2 < a.2 := by
        have h2 : ¬ a.2 ≤ b.2 := hab
        omega
      by_cases ha : a.2 = v
      · have hb : ¬ b.2 = v := by omega
        simp [List.orderedInsert, hab, List.filter_cons, keyEq, ha, hb, ih]
      · by_cases hb : b.2 = v <;>
          simp [List.orderedInsert, hab, List.filter_cons, keyEq, ha, hb, ih]

/-- Stability of the modeled sort: for every key value, sorting preserves
the sublist of entries with that key. -/
theorem filter_insertionSort_key (v : Int) (l : List (Nat × Int)) :
    (List.insertionSort volLE l).filter (keyEq v) = l.filter (keyEq v) := by
  induction l with
  | nil => rfl
  | cons a l ih =>
    simp only [List.insertionSort]
    rw [filter_orderedInsert_key]
    by_cases ha : a.2 = v <;> simp [List.filter_cons, keyEq, ha, ih]

/-! ## Claims -/

/-- C1 (corrected).  The claim states that for 3 items the numeric rename
suffixes are `01`,`02`,`03`; in fact both planners use a 1-digit field for a
batch of 3 (total < 10), producing `1`,`2`,`3`. -/
theorem claim1_counterexample :
    batchNewTitles "B".data "number".data 3 ≠ ["B01".data, "B02".data, "B03".data]
    ∧ previewNewTitles "B".data "number".data 3 ≠ ["B01".data, "B02".data, "B03".data] := by
  decide

/-- C1 (amended): with numbering style numeric, a batch of 3 items gets
1-digit suffixes `1`,`2`,`3` (field width 1 since the total is below 10), and
a batch of 12 items gets 2-digit suffixes `01`..`12`, identically in
`batch_update_metadata` and `preview_metadata_changes`. -/
theorem claim1_thm :
    batchNewTitles "B".data "number".data 3 = ["B1".data, "B2".data, "B3".data]
    ∧ previewNewTitles "B".data "number".data 3 = ["B1".data, "B2".data, "B3".data]
    ∧ batchNewTitles "B".data "number".data 12
        = ["B01".data, "B02".data, "B03".data, "B04".data, "B05".data, "B06".data,
           "B07".data, "B08".data, "B09".data, "B10".data, "B11".data, "B12".data]
    ∧ previewNewTitles "B".data "number".data 12
        = ["B01".data, "B02".data, "B03".data, "B04".data, "B05".data, "B06".data,
           "B07".data, "B08".data, "B09".data, "B10".data, "B11".data, "B12".data] := by
  decide

/-- C2 (corrected).  The claim states the two planners agree on the numeric
zero-pad width for every batch size; `batch_update_metadata` caps the width
at 3 while `preview_metadata_changes` uses the digit count, so they diverge
from 1000 items on. -/
theorem claim2_counterexample :
    batchDigits 1000 = 3 ∧ previewDigits 1000 = 4
    ∧ batchNewTitle "B".data "number".data 1000 1
        ≠ previewNewTitle "B".data "number".data 1000 1 := by
  decide

/-- C2 (amended): for every base title, numbering style and index, and every
batch size from 1 to 999, `preview_metadata_changes` computes exactly the
same new title as `batch_update_metadata` (the zero-pad widths agree on this
range, and the Chinese style is computed identically). -/
theorem claim2_thm (base volume_format : List Char) (total i : Nat)
    (h1 : 1 ≤ total) (h2 : total ≤ 999) :
    batchNewTitle base volume_format total i = previewNewTitle base volume_format total i := by
  unfold batchNewTitle previewNewTitle batchVolumeSuffix previewVolumeSuffix
  by_cases hf : volume_format = "chinese".data
  · simp [hf]
  · simp [hf, zeroPad, previewDigits_eq_batchDigits total h1 h2]

/-- Witness for C2's amended theorem at batch size 12, index 5. -/
theorem claim2_witness :
    1 ≤ 12 ∧ 12 ≤ 999
    ∧ batchNewTitle "B".data "number".data 12 5 = previewNewTitle "B".data "number".data 12 5 :=
  ⟨by decide, by decide, claim2_thm "B".data "number".data 12 5 (by decide) (by decide)⟩

/-- C3 (confirmed): in `batch_update_metadata`, `clear_tags = true` empties
the new tags and `clear_series = true` empties the series fields, but
`clear_publisher = true` keeps the original publisher and
`clear_publisher = false` empties it — the publisher flag acts with the
opposite polarity of the tags and series flags. -/
theorem claim3_thm (mi : Metadata) (new_title author : List Char) (ct cs cp : Bool) :
    (buildNewMetadata mi new_title author true cs cp).tags = []
    ∧ (buildNewMetadata mi new_title author false cs cp).tags = mi.tags
    ∧ (buildNewMetadata mi new_title author ct true cp).series = []
    ∧ (buildNewMetadata mi new_title author ct true cp).series_index = []
    ∧ (buildNewMetadata mi new_title author ct false cp).series = mi.series
    ∧ (buildNewMetadata mi new_title author ct cs true).publisher = mi.publisher
    ∧ (buildNewMetadata mi new_title author ct cs false).publisher = [] := by
  simp [buildNewMetadata]

/-- C4 (corrected).  The claim states that on differing characters with
`dp[i-1][j] = dp[i][j-1]` the backtracking decrements the first string's
index `i`; at `s1 = "a"`, `s2 = "b"`, state `(1, 1)` the characters differ,
the neighboring cells are equal, and the step goes to `(1, 0)` — it
decrements `j`, not `i`. -/
theorem claim4_counterexample :
    ['a'].getD 0 'a' ≠ ['b'].getD 0 'b'
    ∧ dpT ['a'] ['b'] 0 1 = dpT ['a'] ['b'] 1 0
    ∧ lcsStep ['a'] ['b'] 1 1 = (1, 0)
    ∧ lcsStep ['a'] ['b'] 1 1 ≠ (0, 1) := by
  decide

/-- C4 (amended): in the backtracking phase of
`longest_common_subsequence`, when the current characters differ and the two
neighboring DP cells are equal, the algorithm decrements the second string's
index `j` (the `else` branch), and the reconstructed subsequence continues
from `(i, j-1)`. -/
theorem claim4_thm (s1 s2 : List Char) (i j : Nat)
    (hne : s1.getD i 'a' ≠ s2.getD j 'b')
    (htie : dpT s1 s2 i (j + 1) = dpT s1 s2 (i + 1) j) :
    lcsStep s1 s2 (i + 1) (j + 1) = (i + 1, j)
    ∧ lcsBack s1 s2 (i + 1) (j + 1) = lcsBack s1 s2 (i + 1) j := by
  have hnotgt : ¬ dpT s1 s2 i (j + 1) > dpT s1 s2 (i + 1) j := by omega
  have hne2 : ¬ s1[i]?.getD 'a' = s2[j]?.getD 'b' := by simpa using hne
  constructor
  · simp [lcsStep, hne2, hnotgt]
  · unfold lcsBack
    have h : (i + 1) + (j + 1) = ((i + 1) + j) + 1 := by omega
    rw [h]
    simp only [lcsBackA]
    simp [hne2, hnotgt]

/-- Witness for C4's amended theorem at `s1 = "a"`, `s2 = "b"`,
state `(1, 1)`. -/
theorem claim4_witness :
    dpT ['a'] ['b'] 0 1 = dpT ['a'] ['b'] 1 0
    ∧ lcsStep ['a'] ['b'] 1 1 = (1, 0)
    ∧ lcsBack ['a'] ['b'] 1 1 = lcsBack ['a'] ['b'] 1 0 := by
  have h := claim4_thm ['a'] ['b'] 0 0 (by decide) (by decide)
  exact ⟨by decide, h.1, h.2⟩

/-- C5 (confirmed): `detect_and_sort_books_by_volume` returns the same
(identifier, volume) pairs reordered by ascending extracted volume (a
permutation of the resolved input, sorted, with equal volumes keeping their
relative input order), an absent volume resolving to 0; on the three titles
`X第2卷`, `X第1卷`, `X` with ids 1, 2, 3 it returns
`[(3, 0), (2, 1), (1, 2)]`. -/
theorem claim5_thm :
    (∀ books : List (Nat × List Char),
      List.Perm (detect_and_sort_books_by_volume books)
        (books.map (fun b => (b.1, resolvedVolume b.2))))
    ∧ (∀ books : List (Nat × List Char),
        List.Sorted volLE (detect_and_sort_books_by_volume books))
    ∧ (∀ (books : List (Nat × List Char)) (v : Int),
        (detect_and_sort_books_by_volume books).filter (keyEq v)
          = (books.map (fun b => (b.1, resolvedVolume b.2))).filter (keyEq v))
    ∧ detect_and_sort_books_by_volume [(1, "X第2卷".data), (2, "X第1卷".data), (3, "X".data)]
        = [(3, 0), (2, 1), (1, 2)] := by
  refine ⟨fun books => List.perm_insertionSort volLE _,
    fun books => List.sorted_insertionSort volLE _,
    fun books v => filter_insertionSort_key v _, by decide⟩

/-- C6 (corrected).  The claim states that a structurally matched but
unconvertible candidate makes `parse_volume_number` return no value; in fact
`chinese_to_int` never raises and returns 0 on garbage, so the candidate
`IX三` (all characters in the pattern-1 numeral class, convertible by no
numeral system) parses to `some 0`, and the extractor records volume 0 for
`A第IX三卷` instead of "no volume". -/
theorem claim6_counterexample :
    parse_volume_number "IX三".data = some 0
    ∧ parse_volume_number "IX三".data ≠ none
    ∧ (extract_volume_with_context "A第IX三卷".data).2 = some 0 := by
  decide

/-- C6 (amended): for every non-empty candidate volume string,
`parse_volume_number` returns some integer — never "no value" and never an
exception — because the final Chinese-numeral fallback is total; an
unconvertible candidate therefore yields an integer (0 when nothing parses)
rather than being treated as "no volume found". -/
theorem claim6_thm (s : List Char) (h : s ≠ []) :
    (parse_volume_number s).isSome = true := by
  unfold parse_volume_number
  rw [if_neg h]
  dsimp only
  split
  · rfl
  · split
    · rfl
    · rfl

/-- Witness for C6's amended theorem at the candidate `IX三`. -/
theorem claim6_witness :
    ("IX三".data ≠ ([] : List Char)) ∧ (parse_volume_number "IX三".data).isSome = true :=
  ⟨by decide, claim6_thm "IX三".data (by decide)⟩

/-- C7 (confirmed): the simplified title returned by
`extract_volume_with_context` is always an initial segment (a `take`) of the
input title — it never reorders characters, being obtained only by cutting
at the match start and right-stripping separator punctuation — and when no
rule matches the original title is returned unchanged with no volume. -/
theorem claim7_thm (title : List Char) :
    (∃ k, k ≤ title.length ∧ (extract_volume_with_context title).1 = title.take k)
    ∧ ((extract_volume_with_context title).2 = none →
        (extract_volume_with_context title).1 = title) := by
  rcases h : volumeCandidate title with _ | ⟨s, v⟩
  · constructor
    · exact ⟨title.length, le_refl _, by simp [extract_volume_with_context, h]⟩
    · intro _
      simp [extract_volume_with_context, h]
  · constructor
    · obtain ⟨k, hk, he⟩ := rstripIf_eq_take isTrimSep (title.take s)
      refine ⟨min k s, ?_, ?_⟩
      · have hlen : (title.take s).length = min s title.length := List.length_take s title
        omega
      · simp only [extract_volume_with_context, h]
        rw [he, List.take_take]
    · intro hnone
      simp [extract_volume_with_context, h] at hnone

/-- Witness for C7 at the concrete title `AB - 3`. -/
theorem claim7_witness :
    ∃ k, k ≤ ("AB - 3".data).length
      ∧ (extract_volume_with_context "AB - 3".data).1 = ("AB - 3".data).take k :=
  (claim7_thm "AB - 3".data).1

/-- C8 (confirmed): for every integer 0 ≤ n ≤ 99, converting with
`int_to_chinese` and parsing back with `chinese_to_int` yields n again. -/
theorem claim8_thm (n : Nat) (h : n ≤ 99) :
    chinese_to_int (int_to_chinese n) = n := by
  have haux : ∀ m : Fin 100, chinese_to_int (int_to_chinese m.val) = m.val := by decide
  exact haux ⟨n, by omega⟩

/-- Witness for C8 at n = 42. -/
theorem claim8_witness :
    42 ≤ 99 ∧ chinese_to_int (int_to_chinese 42) = 42 :=
  ⟨by decide, claim8_thm 42 (by decide)⟩

/-- C9 (code bug).  The claim (and the spec) require `extract_base_title`
to be deterministic for a fixed input; but step 5 sorts the common-word set
by length only, stably, so words of equal length come out in CPython's
hash-randomized set-iteration order.  On the two titles `fg pq` and `pq fg`
the common-word set is {`fg`, `pq`}; the two possible iteration orders (both
permutations of the same set) produce the distinct base titles `fg pq` and
`pq fg`. -/
theorem claim9_thm :
    commonWordsCanon ["fg pq".data, "pq fg".data] = ["fg".data, "pq".data]
    ∧ List.Perm ["pq".data, "fg".data] ["fg".data, "pq".data]
    ∧ extract_base_title_ord ["fg pq".data, "pq fg".data] ["fg".data, "pq".data]
        ≠ extract_base_title_ord ["fg pq".data, "pq fg".data] ["pq".data, "fg".data] := by
  refine ⟨by decide, List.Perm.swap "fg".data "pq".data [], by decide⟩

/-- C10 (corrected).  The claim states that mismatched id/metadata/title
list lengths are rejected without truncation; in fact the consistency step
of `organize_book_data` silently truncates all three lists to the shortest
length and proceeds: on ids `[1, 2]` with one metadata object and one title
it returns the truncated data instead of signaling a contract violation. -/
theorem claim10_counterexample :
    reconcileBookData [1, 2] ([10] : List Nat) ([20] : List Nat)
        = some ([1], [10], [20])
    ∧ reconcileBookData [1, 2] ([10] : List Nat) ([20] : List Nat) ≠ none := by
  decide

/-- C10 (amended): the `accept` handler does reject a book-id/metadata
length mismatch (it refuses to proceed), but `organize_book_data`'s
consistency step silently truncates mismatched id/metadata/title lists to
the shortest length and proceeds whenever that length is positive. -/
theorem claim10_thm {α β : Type} (ids : List Nat) (books : List α) (titles : List β) :
    (ids.length ≠ books.length → acceptProceeds ids books = false)
    ∧ (¬ (ids.length = books.length ∧ books.length = titles.length) →
        0 < min ids.length (min books.length titles.length) →
        reconcileBookData ids books titles =
          some (ids.take (min ids.length (min books.length titles.length)),
                books.take (min ids.length (min books.length titles.length)),
                titles.take (min ids.length (min books.length titles.length)))) := by
  constructor
  · intro h
    simp only [acceptProceeds, beq_eq_false_iff_ne, ne_eq]
    exact h
  · intro hne hpos
    unfold reconcileBookData
    rw [if_neg hne, if_neg (by omega)]

/-- Witness for C10's amended theorem at ids `[1, 2]`, one metadata object,
one title. -/
theorem claim10_witness :
    acceptProceeds [1, 2] ([10] : List Nat) = false
    ∧ reconcileBookData [1, 2] ([10] : List Nat) ([20] : List Nat)
        = some ([1], [10], [20]) := by
  have h := claim10_thm [1, 2] ([10] : List Nat) ([20] : List Nat)
  refine ⟨h.1 (by decide), ?_⟩
  have h2 := h.2 (by decide) (by decide)
  exact h2.trans (by decide)

end Calibre
